import Mathlib

/-!
Verification development for the streaming chat core of the
community-chatbot repository.

Producer side is embedded from `backend/internal/handlers/chat.go`
(dedup map, SSE stream writer, word-by-word chunking, rule-based
response generator).  Consumer side is embedded from
`frontend/src/hooks/agui/useAGUIChat.ts` (two shipped revisions of the
hook, called `v1` and `v2` below, which differ only in whether the
terminal-event handlers close the EventSource) together with the zustand
chat store (`addMessage` / `updateMessage`).  URL codecs
(`encodeURIComponent`, `URLSearchParams` form-encoding, the transport's
query-argument decoding, and Go's `url.QueryUnescape`) are embedded at
byte level, a string being modelled as its list of bytes.
-/

namespace CommunityChatbot

/-! ## Byte-level URL codecs

Bytes are modelled as `Nat` (meaningful below 256).  `fromHexDigit` and
the encoders mirror `net/url`'s `ishex`/`unhex`, JavaScript's
`encodeURIComponent` unreserved set, the WHATWG `URLSearchParams`
serializer, and fasthttp's query-argument decoder. -/

/-- Hex digit value of a byte, as in Go net/url `ishex`/`unhex`:
accepts 0-9, A-F, a-f. -/
def fromHexDigit (c : Nat) : Option Nat :=
  if 48 ≤ c ∧ c ≤ 57 then some (c - 48)
  else if 65 ≤ c ∧ c ≤ 70 then some (c - 55)
  else if 97 ≤ c ∧ c ≤ 102 then some (c - 87)
  else none

/-- Upper-case hex digit for a value below 16. -/
def toHexUpper (n : Nat) : Nat := if n < 10 then 48 + n else 55 + n

/-- Percent-encoding of one byte: `%` followed by two upper-case hex digits. -/
def pctEncode (b : Nat) : List Nat := [37, toHexUpper (b / 16), toHexUpper (b % 16)]

/-- ASCII alphanumeric byte. -/
def isAlphaNum (b : Nat) : Bool :=
  decide (48 ≤ b ∧ b ≤ 57) || decide (65 ≤ b ∧ b ≤ 90) || decide (97 ≤ b ∧ b ≤ 122)

/-- Bytes left intact by JavaScript `encodeURIComponent`:
alphanumerics and `- _ . ! ~ * ' ( )`. -/
def isUriUnreserved (b : Nat) : Bool :=
  isAlphaNum b || b == 45 || b == 95 || b == 46 || b == 33 || b == 126 ||
  b == 42 || b == 39 || b == 40 || b == 41

/-- JavaScript `encodeURIComponent` over the UTF-8 bytes of a string. -/
def encodeURIComponentB : List Nat → List Nat
  | [] => []
  | b :: rest =>
    (if isUriUnreserved b then [b] else pctEncode b) ++ encodeURIComponentB rest

/-- Bytes left intact by the `application/x-www-form-urlencoded` serializer
used by `URLSearchParams.toString`: alphanumerics and `* - . _`. -/
def isFormUnreserved (b : Nat) : Bool :=
  isAlphaNum b || b == 42 || b == 45 || b == 46 || b == 95

/-- `URLSearchParams` value serialization (`url.searchParams.set` followed by
`url.toString()`): space becomes `+`, the unreserved set is kept, every
other byte is percent-encoded. -/
def formEncodeB : List Nat → List Nat
  | [] => []
  | b :: rest =>
    (if b == 32 then [43] else if isFormUnreserved b then [b] else pctEncode b) ++
      formEncodeB rest

/-- Transport-level decoding of a query-argument value as performed by the
backend HTTP library before `c.Query` returns (fasthttp `decodeArgAppend`):
`%XX` with two hex digits becomes the byte, `+` becomes space, an invalid
escape leaves the `%` literal, everything else is copied. -/
def transportDecodeB : List Nat → List Nat
  | [] => []
  | [b] => if b == 43 then [32] else [b]
  | [b, c] =>
    if b == 37 then 37 :: transportDecodeB [c]
    else if b == 43 then 32 :: transportDecodeB [c]
    else b :: transportDecodeB [c]
  | b :: c1 :: c2 :: rest =>
    if b == 37 then
      match fromHexDigit c1, fromHexDigit c2 with
      | some x1, some x2 => (16 * x1 + x2) :: transportDecodeB rest
      | _, _ => 37 :: transportDecodeB (c1 :: c2 :: rest)
    else if b == 43 then 32 :: transportDecodeB (c1 :: c2 :: rest)
    else b :: transportDecodeB (c1 :: c2 :: rest)

/-- Go `url.QueryUnescape`: `%XX` with two hex digits becomes the byte,
`+` becomes space, a `%` not followed by two hex digits is an error
(`none`). -/
def queryUnescapeB : List Nat → Option (List Nat)
  | [] => some []
  | [b] =>
    if b == 37 then none
    else if b == 43 then some [32]
    else some [b]
  | [b, c] =>
    if b == 37 then none
    else if b == 43 then (queryUnescapeB [c]).map (fun t => 32 :: t)
    else (queryUnescapeB [c]).map (fun t => b :: t)
  | b :: c1 :: c2 :: rest =>
    if b == 37 then
      match fromHexDigit c1, fromHexDigit c2 with
      | some x1, some x2 => (queryUnescapeB rest).map (fun t => (16 * x1 + x2) :: t)
      | _, _ => none
    else if b == 43 then (queryUnescapeB (c1 :: c2 :: rest)).map (fun t => 32 :: t)
    else (queryUnescapeB (c1 :: c2 :: rest)).map (fun t => b :: t)

/-- The handler's extra decoding step (`chat.go` lines 121-125):
`url.QueryUnescape` applied to the already transport-decoded parameter,
falling back to the raw parameter when unescaping errors. -/
def serverDecodeB (l : List Nat) : List Nat := (queryUnescapeB l).getD l

/-- End-to-end text pipeline of the v1 hook: `encodeURIComponent`, then
`URLSearchParams` serialization, then transport decode, then the
handler's `QueryUnescape`-with-fallback. -/
def v1PipelineB (l : List Nat) : List Nat :=
  serverDecodeB (transportDecodeB (formEncodeB (encodeURIComponentB l)))

/-- End-to-end text pipeline of the v2 hook (`searchParams.set` without
pre-encoding, comment "Don't double encode"), then transport decode, then
the handler's `QueryUnescape`-with-fallback. -/
def v2PipelineB (l : List Nat) : List Nat :=
  serverDecodeB (transportDecodeB (formEncodeB l))

/-- Bytes of a string (each char taken as one byte; faithful for ASCII). -/
def bytesOfString (s : String) : List Nat := s.data.map Char.toNat

/-- String from a list of bytes below 256. -/
def stringOfBytes (l : List Nat) : String := String.mk (l.map Char.ofNat)

/-- `decodedMessage` computation of `ChatHandler.StreamChat`: QueryUnescape
with fallback to the raw message on error. -/
def decodeMessage (raw : String) : String :=
  match queryUnescapeB (bytesOfString raw) with
  | some bs => stringOfBytes bs
  | none => raw

/-! ## Producer: `backend/internal/handlers/chat.go` -/

/-- AG-UI protocol events (the discriminated union carried in SSE `data:`
frames; field layout from the event structs in `chat.go` and the
TypeScript event types). -/
inductive AGUIEvent where
  | streamingStart (messageId : String)
  | textMessageContent (content : String) (isComplete : Bool)
  | activitiesFound (activities : List String) (totalCount : Nat) (searchQuery : Option String)
  | imagesLoaded (activityId : String) (images : List String)
  | toolExecutionStart (toolName : String)
  | toolExecutionEnd (toolName : String)
  | streamingEnd
  | error (message : String)
  | unknown (tag : String)
deriving DecidableEq, Repr

/-- Terminal events of a stream: `STREAMING_END` or `ERROR`. -/
def isTerminalEvent : AGUIEvent → Bool
  | .streamingEnd => true
  | .error _ => true
  | _ => false

/-- An `ERROR` event. -/
def isErrorEvent : AGUIEvent → Bool
  | .error _ => true
  | _ => false

/-- Go `unicode.IsSpace` for the Latin-1 range (the characters
`strings.Fields` splits on). -/
def isSpaceGo (c : Char) : Bool :=
  c.toNat == 32 || c.toNat == 9 || c.toNat == 10 || c.toNat == 11 ||
  c.toNat == 12 || c.toNat == 13 || c.toNat == 133 || c.toNat == 160

/-- Worker for `fields`: accumulates the current word and splits at
whitespace, dropping empty words. -/
def splitWords (cur : List Char) : List Char → List String
  | [] => if cur.isEmpty then [] else [String.mk cur]
  | c :: rest =>
    if isSpaceGo c then
      if cur.isEmpty then splitWords [] rest else String.mk cur :: splitWords [] rest
    else splitWords (cur ++ [c]) rest

/-- Go `strings.Fields`: whitespace-delimited tokens of a string. -/
def fields (s : String) : List String := splitWords [] s.data

/-- Worker for `goContains`: does `sub` occur as a contiguous run in `l`? -/
def hasInfix (sub : List Char) : List Char → Bool
  | [] => sub.isEmpty
  | c :: rest => sub.isPrefixOf (c :: rest) || hasInfix sub rest

/-- Substring test, as Go `strings.Contains`. -/
def goContains (s sub : String) : Bool := hasInfix sub.data s.data

/-- `ChatHandler.generateResponse`: the rule-based response stub. -/
def generateResponse (message : String) : String :=
  let m := message.toLower
  if goContains m "hiking" || goContains m "trail" then
    "I found some great hiking trails in your area! Here are a few popular options: Bear Mountain Trail (moderate difficulty, 3.2 miles), Sunset Ridge Loop (easy, 1.8 miles), and Eagle Peak Summit (challenging, 5.7 miles). Would you like more details about any of these trails?"
  else if goContains m "cycling" || goContains m "bike" then
    "There are several excellent cycling routes nearby! I recommend the Riverside Path (easy, 8 miles of paved trail), Mountain Loop Road (moderate, 12 miles with scenic views), and the Advanced Hill Circuit (challenging, 15 miles with steep climbs). Which type of cycling experience are you looking for?"
  else if goContains m "restaurant" || goContains m "food" || goContains m "eat" then
    "Here are some great local restaurants: The Mountain View Café (farm-to-table, outdoor seating), Trailhead Grill (burgers and craft beer), and Summit Bistro (fine dining with valley views). What type of cuisine are you in the mood for?"
  else
    "Thanks for your message! I\x27m here to help you discover outdoor activities, restaurants, and local attractions. You can ask me about hiking trails, cycling routes, places to eat, or any other activities you\x27re interested in. What would you like to explore today?"

/-- The `TEXT_MESSAGE_CONTENT` events emitted by the word loop of
`StreamChat`: one event per word, a trailing space on every word except
the last, `isComplete` true only on the last (`i == len(words)-1`). -/
def wordEvents : List String → List AGUIEvent
  | [] => []
  | [w] => [.textMessageContent w true]
  | w :: ws => .textMessageContent (w ++ " ") false :: wordEvents ws

/-- Events actually written by a loop over `es` whose write at call index
`i` succeeds iff `writeOk i`; the loop `break`s at the first failed write
(`chat.go` lines 181-201).  Returns the written events and the next call
index. -/
def emitWords (writeOk : Nat → Bool) : Nat → List AGUIEvent → List AGUIEvent × Nat
  | i, [] => ([], i)
  | i, e :: es =>
    if writeOk i then
      let r := emitWords writeOk (i + 1) es
      (e :: r.1, r.2)
    else ([], i + 1)

/-- The body-stream writer of `StreamChat`: write the start event (call 0;
on failure return immediately), then the word loop (breaking at the first
failed write), then always attempt the `STREAMING_END` event, then return,
which ends the body stream and closes the connection.  `writeOk i` models
whether the i-th `writeEvent` call succeeds.  No `ErrorEvent` is ever
written anywhere in the function. -/
def streamWriterEvents (messageId : String) (response : String) (writeOk : Nat → Bool) :
    List AGUIEvent :=
  if writeOk 0 then
    let r := emitWords writeOk 1 (wordEvents (fields response))
    .streamingStart messageId :: r.1 ++ (if writeOk r.2 then [.streamingEnd] else [])
  else []

/-- The dedup map `recentMessages : map[string]time.Time`, modelled as an
association list whose most recent binding for a key comes first
(map assignment shadows). Times are in seconds. -/
def DedupMap := List (String × Nat)

/-- Lookup in the dedup map (first binding wins, as the model keeps the
newest binding at the head). -/
def lookupMsg : DedupMap → String → Option Nat
  | [], _ => none
  | (k, t) :: rest, m => if k = m then some t else lookupMsg rest m

/-- `ChatHandler.isRecentMessage`: the message exists in the map and was
seen less than 10 seconds ago (`time.Since(lastTime) < 10*time.Second`). -/
def isRecentMessage (st : DedupMap) (now : Nat) (m : String) : Bool :=
  match lookupMsg st m with
  | some t => decide (now - t < 10)
  | none => false

/-- `ChatHandler.recordMessage`: store the message with the current time. -/
def recordMessage (st : DedupMap) (now : Nat) (m : String) : DedupMap :=
  (m, now) :: st

/-- The duplicate-rejection body text from `StreamChat`. -/
def dupBody : String :=
  "Duplicate message sent too quickly. Please wait before sending the same message again."

/-- The missing-parameter body text from `StreamChat`. -/
def missingBody : String := "message parameter is required"

/-- Result of one `StreamChat` request: HTTP status, optional plain JSON
error body, the SSE events written, and the dedup map afterwards. -/
structure HandlerResult where
  status : Nat
  body : Option String
  events : List AGUIEvent
  state : DedupMap

/-- `ChatHandler.StreamChat`: reject an empty message with 400; decode the
message (QueryUnescape with fallback); reject a recent duplicate with 429
and no stream; otherwise record the message and run the stream writer.
`messageId` stands for the freshly generated `msg-<ns>` id and `writeOk`
for the success of the successive connection writes. -/
def streamChat (st : DedupMap) (now : Nat) (messageId : String) (writeOk : Nat → Bool)
    (raw : String) : HandlerResult :=
  if raw = "" then ⟨400, some missingBody, [], st⟩
  else
    let decoded := decodeMessage raw
    if isRecentMessage st now decoded then ⟨429, some dupBody, [], st⟩
    else
      ⟨200, none, streamWriterEvents messageId (generateResponse decoded) writeOk,
        recordMessage st now decoded⟩

/-! ## Consumer: `frontend/src/hooks/agui/useAGUIChat.ts` and the chat store

The repository ships two revisions of the hook.  `v1` leaves the
EventSource open when a terminal event is handled; `v2` closes it there
and sets the manual-disconnect flag.  They also differ in how the
transport error handler reports (`setError` vs `setConnectionError`) and
in small parts of `sendMessage`/`reconnect`. -/

/-- Message type tags used by the frontend. -/
inductive MsgType where
  | user
  | assistant
  | error
deriving DecidableEq, Repr

/-- A chat message as kept in the zustand store. -/
structure Message where
  id : String
  mtype : MsgType
  content : String
  timestamp : Nat
  isStreaming : Bool
  activities : List String
  images : List String
deriving DecidableEq, Repr

/-- A `Partial<Message>` update as passed to `updateMessage`; only the
fields the hook ever updates. -/
structure MessageUpdate where
  content : Option String
  isStreaming : Option Bool
  activities : Option (List String)
  images : Option (List String)
deriving DecidableEq, Repr

/-- The empty update (`{}`). -/
def emptyUpdate : MessageUpdate := ⟨none, none, none, none⟩

/-- Spread-merge of an update into a message (`{ ...msg, ...updates }`). -/
def applyUpdate (u : MessageUpdate) (m : Message) : Message :=
  { m with
    content := u.content.getD m.content
    isStreaming := u.isStreaming.getD m.isStreaming
    activities := u.activities.getD m.activities
    images := u.images.getD m.images }

/-- Store `updateMessage(id, updates)`: map over the log, merging the
update into every message whose id matches. -/
def updateMessageL (id : String) (u : MessageUpdate) (msgs : List Message) : List Message :=
  msgs.map (fun m => if m.id = id then applyUpdate u m else m)

/-- The two shipped revisions of the hook. -/
inductive Version where
  | v1
  | v2
deriving DecidableEq, Repr

/-- Consumer-side state: the chat store (`messages`, `isStreaming`,
`activities`, `error`), the hook-local `connectionError` (v2 only),
`isConnected`, whether an EventSource object is currently held open
(`conn`, i.e. `eventSourceRef.current` non-null), the
`isManuallyDisconnected` ref, and the accumulation refs. -/
structure ConsumerState where
  messages : List Message
  isStreaming : Bool
  activities : List String
  error : Option String
  connectionError : Option String
  isConnected : Bool
  conn : Bool
  manuallyDisconnected : Bool
  currentMessageId : String
  currentMessage : String
deriving DecidableEq, Repr

/-- State just after a connection was opened for a first query:
empty store, EventSource held and connected. -/
def initOpenState : ConsumerState :=
  ⟨[], false, [], none, none, true, true, false, "", ""⟩

/-- `handleAGUIEvent`: the event fold of the hook.  `now` stands for
`Date.now()` when the handler synthesizes an id or a timestamp. -/
def handleAGUIEvent (v : Version) (now : Nat) (e : AGUIEvent) (s : ConsumerState) :
    ConsumerState :=
  match e with
  | .streamingStart mid0 =>
    let mid := if mid0 = "" then "msg-" ++ toString now else mid0
    { s with
      isStreaming := true
      currentMessageId := mid
      currentMessage := ""
      messages := s.messages ++ [⟨mid, .assistant, "", now, true, [], []⟩] }
  | .textMessageContent c ic =>
    let acc := s.currentMessage ++ c
    { s with
      currentMessage := acc
      messages := updateMessageL s.currentMessageId ⟨some acc, some (!ic), none, none⟩
        s.messages }
  | .activitiesFound acts _total _sq =>
    { s with
      activities := acts
      messages := updateMessageL s.currentMessageId ⟨none, none, some acts, none⟩
        s.messages }
  | .imagesLoaded _aid imgs =>
    { s with
      messages := updateMessageL s.currentMessageId ⟨none, none, none, some imgs⟩
        s.messages }
  | .toolExecutionStart _ => s
  | .toolExecutionEnd _ => s
  | .streamingEnd =>
    let s1 := { s with
      isStreaming := false
      messages := updateMessageL s.currentMessageId ⟨none, some false, none, none⟩
        s.messages
      currentMessage := ""
      currentMessageId := "" }
    match v with
    | .v1 => s1
    | .v2 =>
      { s1 with
        manuallyDisconnected := true
        conn := false
        isConnected := if s1.conn then false else s1.isConnected }
  | .error msg =>
    let s1 := { s with
      error := some msg
      isStreaming := false
      messages := s.messages ++ [⟨"error-" ++ toString now, .error, msg, now, false, [], []⟩] }
    match v with
    | .v1 => s1
    | .v2 =>
      { s1 with
        manuallyDisconnected := true
        conn := false
        isConnected := if s1.conn then false else s1.isConnected }
  | .unknown _ => s

/-- An inbound SSE frame: either it parses to a single event, to a JSON
array of events, or it is garbage that `JSON.parse` rejects. -/
inductive Frame where
  | data (e : AGUIEvent)
  | batch (es : List AGUIEvent)
  | garbage (raw : String)
deriving DecidableEq, Repr

/-- `parseAGUIEvent`: a single event parses to itself, a batched array
yields its first event (an empty array yields nothing the guard accepts),
a parse failure is logged and yields `null`. -/
def parseAGUIEvent : Frame → Option AGUIEvent
  | .data e => some e
  | .batch es => es.head?
  | .garbage _ => none

/-- The `onmessage` handler: parse, and handle only when parsing
succeeded (`if (aguiEvent)`). -/
def onmessage (v : Version) (now : Nat) (f : Frame) (s : ConsumerState) : ConsumerState :=
  match parseAGUIEvent f with
  | some e => handleAGUIEvent v now e s
  | none => s

/-- The `onerror` handler.  `readyClosed` tells whether
`eventSource.readyState === EventSource.CLOSED`.  v1 reports through the
store's `setError`; v2 closes first and reports through
`setConnectionError`.  Neither touches the streaming flag. -/
def onerror (v : Version) (readyClosed : Bool) (s : ConsumerState) : ConsumerState :=
  match v with
  | .v1 =>
    { s with
      isConnected := false
      error := some (if readyClosed then "Connection closed unexpectedly"
        else "Connection error occurred")
      conn := false }
  | .v2 =>
    { s with
      isConnected := false
      conn := false
      connectionError := some (if readyClosed then "Connection closed unexpectedly"
        else "Connection error occurred") }

/-- The `onopen` handler (fires only while an EventSource is held). -/
def onopen (v : Version) (s : ConsumerState) : ConsumerState :=
  if s.conn then
    match v with
    | .v1 => { s with isConnected := true, error := none }
    | .v2 => { s with isConnected := true, error := none, connectionError := none }
  else s

/-- The locally synthesized optimistic user message of `sendMessage`. -/
def userMessage (now : Nat) (text : String) : Message :=
  ⟨"user-" ++ toString now, .user, text, now, false, [], []⟩

/-- `sendMessage(message)`: ignored while `isStreaming`; otherwise closes
any stale EventSource, appends the user message, and runs
`setupEventSource` (`endpointOk` models whether URL validation and
EventSource construction succeed).  Returns the new state and the number
of connection attempts made (1 when a stream was opened). -/
def sendMessage (v : Version) (now : Nat) (text : String) (endpointOk : Bool)
    (s : ConsumerState) : ConsumerState × Nat :=
  if s.isStreaming then (s, 0)
  else
    let s1 :=
      if s.conn then
        match v with
        | .v1 => { s with conn := false }
        | .v2 => { s with conn := false, isConnected := false, manuallyDisconnected := true }
      else s
    let s2 := { s1 with messages := s1.messages ++ [userMessage now text] }
    match v with
    | .v1 =>
      if endpointOk then ({ s2 with conn := true }, 1)
      else ({ s2 with error := some "Failed to send message" }, 0)
    | .v2 =>
      let s3 := { s2 with connectionError := none, error := none }
      if endpointOk then ({ s3 with conn := true }, 1)
      else ({ s3 with connectionError := some "Invalid endpoint URL format" }, 0)

/-- `reconnect()`: closes any existing connection and clears error and
connection state, but never opens a stream itself. -/
def reconnectFn (v : Version) (s : ConsumerState) : ConsumerState :=
  match v with
  | .v1 => { s with conn := false, isConnected := false, error := none }
  | .v2 =>
    { s with
      conn := false
      manuallyDisconnected := s.conn || s.manuallyDisconnected
      isConnected := false
      connectionError := none
      error := none }

/-- The error string surfaced by the hook: v1 returns the store error,
v2 returns `error || connectionError` (empty string is falsy). -/
def exposedError (v : Version) (s : ConsumerState) : Option String :=
  match v with
  | .v1 => s.error
  | .v2 =>
    match s.error with
    | some m => if m = "" then s.connectionError else some m
    | none => s.connectionError

/-- External stimuli the consumer reacts to. -/
inductive ConsumerInput where
  | send (text : String) (endpointOk : Bool)
  | opened
  | frame (f : Frame)
  | transportError (readyClosed : Bool)
  | reconnectCall
deriving DecidableEq, Repr

/-- `send` inputs (explicit `sendQuery` calls by the user). -/
def isSendInput : ConsumerInput → Bool
  | .send _ _ => true
  | _ => false

/-- One consumer step: dispatch an input to the corresponding handler.
Transport callbacks (`opened`/`frame`/`transportError`) only fire while
an EventSource object is held.  Returns the new state and the number of
connection attempts the step performed. -/
def stepInput (v : Version) (now : Nat) (s : ConsumerState) :
    ConsumerInput → ConsumerState × Nat
  | .send text ok => sendMessage v now text ok s
  | .opened => (onopen v s, 0)
  | .frame f => (if s.conn then onmessage v now f s else s, 0)
  | .transportError rc => (if s.conn then onerror v rc s else s, 0)
  | .reconnectCall => (reconnectFn v s, 0)

/-- Run a list of timed inputs, accumulating connection attempts. -/
def runTrace (v : Version) : ConsumerState → List (Nat × ConsumerInput) → ConsumerState × Nat
  | s, [] => (s, 0)
  | s, (now, i) :: rest =>
    let r := stepInput v now s i
    let r2 := runTrace v r.1 rest
    (r2.1, r.2 + r2.2)

/-- Fold a list of events through `handleAGUIEvent`. -/
def foldEvents (v : Version) (now : Nat) (es : List AGUIEvent) (s : ConsumerState) :
    ConsumerState :=
  es.foldl (fun s e => handleAGUIEvent v now e s) s

/-- A whole stream as the consumer sees it: fold the delivered events and
then, if the EventSource object is still held when the producer closes
the transport, run the `onerror` handler (the browser reports the close
there; a handler that already called `close()` hears nothing). -/
def processStream (v : Version) (now : Nat) (readyClosed : Bool) (es : List AGUIEvent)
    (s : ConsumerState) : ConsumerState :=
  let s1 := foldEvents v now es s
  if s1.conn then onerror v readyClosed s1 else s1

/-- Number of error-type messages in a log. -/
def errCount (msgs : List Message) : Nat :=
  msgs.countP (fun m => decide (m.mtype = MsgType.error))

/-- A `TEXT_MESSAGE_CONTENT` event. -/
def isTextEvent : AGUIEvent → Bool
  | .textMessageContent _ _ => true
  | _ => false

/-- Concatenation of a list of strings in order. -/
def concatS : List String → String
  | [] => ""
  | c :: cs => c ++ concatS cs

/-- A list of tokens joined by single spaces (what the producer's
trailing-space convention makes the contents concatenate to). -/
def joinWords : List String → String
  | [] => ""
  | [w] => w
  | w :: ws => w ++ " " ++ joinWords ws

/-- The `content` fields of the text events of a stream, in order. -/
def contentsOf (es : List AGUIEvent) : List String :=
  es.filterMap (fun e => match e with
    | .textMessageContent c _ => some c
    | _ => none)

/-- The `isComplete` flags of the text events of a stream, in order. -/
def flagsOf (es : List AGUIEvent) : List Bool :=
  es.filterMap (fun e => match e with
    | .textMessageContent _ b => some b
    | _ => none)

/-! ## Helper lemmas -/

theorem stepInput_attempts_zero (v : Version) (now : Nat) (s : ConsumerState)
    (i : ConsumerInput) (h : isSendInput i = false) : (stepInput v now s i).2 = 0 := by
  cases i with
  | send text ok => simp [isSendInput] at h
  | opened => rfl
  | frame f => rfl
  | transportError rc => rfl
  | reconnectCall => rfl

theorem runTrace_attempts_zero (v : Version) :
    ∀ (tr : List (Nat × ConsumerInput)) (s : ConsumerState),
      (∀ p ∈ tr, isSendInput p.2 = false) → (runTrace v s tr).2 = 0 := by
  intro tr
  induction tr with
  | nil => intro s _; rfl
  | cons p rest ih =>
    intro s h
    have h1 : isSendInput p.2 = false := h p (List.mem_cons_self p rest)
    have h2 : ∀ q ∈ rest, isSendInput q.2 = false :=
      fun q hq => h q (List.mem_cons_of_mem p hq)
    simp [runTrace, stepInput_attempts_zero v p.1 s p.2 h1, ih _ h2]

theorem applyUpdate_empty (m : Message) : applyUpdate emptyUpdate m = m := rfl

theorem applyUpdate_mtype (u : MessageUpdate) (m : Message) :
    (applyUpdate u m).mtype = m.mtype := rfl

theorem updateMessageL_empty (id : String) (msgs : List Message) :
    updateMessageL id emptyUpdate msgs = msgs := by
  unfold updateMessageL
  induction msgs with
  | nil => rfl
  | cons m rest ih => simp [applyUpdate_empty, ih]

/-! ## Claim theorems -/

/-- C1: after the consumer processes a terminal event (`StreamEnd` or
`Error`), any subsequent run of consumer steps that contains no explicit
`sendQuery` call performs zero connection attempts: no consumer handler
other than `sendMessage` ever opens an EventSource. -/
theorem consumer_no_auto_reconnect_after_terminal
    (v : Version) (now0 : Nat) (e : AGUIEvent) (s0 : ConsumerState)
    (tr : List (Nat × ConsumerInput))
    (hterm : isTerminalEvent e = true)
    (hnosend : ∀ p ∈ tr, isSendInput p.2 = false) :
    (runTrace v (handleAGUIEvent v now0 e s0) tr).2 = 0 :=
  runTrace_attempts_zero v tr (handleAGUIEvent v now0 e s0) hnosend

/-- Witness for C1: after a `STREAMING_END`, a transport error, a manual
`reconnect()` call and a stray frame trigger no connection attempt. -/
theorem consumer_no_auto_reconnect_after_terminal_witness :
    (runTrace .v2 (handleAGUIEvent .v2 0 .streamingEnd initOpenState)
      [(1, .transportError true), (2, .reconnectCall), (3, .frame (.garbage "x"))]).2 = 0 :=
  consumer_no_auto_reconnect_after_terminal .v2 0 .streamingEnd initOpenState
    [(1, .transportError true), (2, .reconnectCall), (3, .frame (.garbage "x"))]
    rfl (by decide)

/-- C6: `sendMessage` is a no-op while a stream is active (`isStreaming`);
otherwise it appends exactly one synthesized user message, makes at most
one connection attempt, and when setup succeeds holds a fresh open
EventSource (any stale one having been closed first). -/
theorem sendMessage_guard_and_append
    (v : Version) (now : Nat) (text : String) (ok : Bool) (s : ConsumerState) :
    (s.isStreaming = true → sendMessage v now text ok s = (s, 0))
  ∧ (s.isStreaming = false →
      (sendMessage v now text ok s).1.messages = s.messages ++ [userMessage now text]
    ∧ (userMessage now text).mtype = MsgType.user
    ∧ (ok = true → (sendMessage v now text ok s).1.conn = true
        ∧ (sendMessage v now text ok s).2 = 1)
    ∧ (sendMessage v now text ok s).2 ≤ 1) := by
  constructor
  · intro h; simp [sendMessage, h]
  · intro h
    cases v <;> cases ok <;> by_cases hc : s.conn <;>
      simp [sendMessage, h, hc, userMessage]

/-- Witness for C6: a send on the initial open state appends the user
message. -/
theorem sendMessage_guard_and_append_witness :
    (sendMessage .v2 5 "hello" true initOpenState).1.messages
      = initOpenState.messages ++ [userMessage 5 "hello"]
  ∧ (sendMessage .v2 5 "hello" true initOpenState).2 = 1 := by
  have h := (sendMessage_guard_and_append .v2 5 "hello" true initOpenState).2 rfl
  exact ⟨h.1, (h.2.2.1 rfl).2⟩

/-- C7 counterexample: in v2, a transport error arriving mid-stream (after
`STREAMING_START`, before any terminal event) closes the connection and
sets an error state but leaves `isStreaming` true — the handler never
calls `setStreaming(false)`, contradicting the claim that streaming is
set to false. -/
theorem transport_error_keeps_streaming_cex :
    (handleAGUIEvent .v2 0 (.streamingStart "m1") initOpenState).isStreaming = true
  ∧ (stepInput .v2 1 (handleAGUIEvent .v2 0 (.streamingStart "m1") initOpenState)
      (.transportError true)).1.isStreaming = true
  ∧ (stepInput .v2 1 (handleAGUIEvent .v2 0 (.streamingStart "m1") initOpenState)
      (.transportError true)).1.conn = false
  ∧ exposedError .v2
      (stepInput .v2 1 (handleAGUIEvent .v2 0 (.streamingStart "m1") initOpenState)
        (.transportError true)).1 = some "Connection closed unexpectedly" := by
  decide

/-- C7 (amended): when the transport reports an error or close while the
EventSource is still held (no terminal event has closed it), the consumer
sets a non-empty error state, marks the connection closed, closes out the
connection object, and makes no connection attempt — but it does NOT set
`streaming=false`; the streaming flag is left unchanged. -/
theorem transport_error_handling
    (v : Version) (rc : Bool) (now : Nat) (s : ConsumerState) (hconn : s.conn = true) :
    (stepInput v now s (.transportError rc)).1.isConnected = false
  ∧ (stepInput v now s (.transportError rc)).1.conn = false
  ∧ (∃ m, exposedError v (stepInput v now s (.transportError rc)).1 = some m ∧ m ≠ "")
  ∧ (stepInput v now s (.transportError rc)).2 = 0
  ∧ (stepInput v now s (.transportError rc)).1.isStreaming = s.isStreaming := by
  cases v with
  | v1 =>
    refine ⟨by simp [stepInput, hconn, onerror], by simp [stepInput, hconn, onerror],
      ⟨if rc then "Connection closed unexpectedly" else "Connection error occurred",
        by simp [stepInput, hconn, onerror, exposedError], by cases rc <;> decide⟩,
      rfl, by simp [stepInput, hconn, onerror]⟩
  | v2 =>
    refine ⟨by simp [stepInput, hconn, onerror], by simp [stepInput, hconn, onerror],
      ?_, rfl, by simp [stepInput, hconn, onerror]⟩
    rcases he : s.error with _ | m
    · exact ⟨if rc then "Connection closed unexpectedly" else "Connection error occurred",
        by simp [stepInput, hconn, onerror, exposedError, he], by cases rc <;> decide⟩
    · by_cases hm : m = ""
      · exact ⟨if rc then "Connection closed unexpectedly" else "Connection error occurred",
          by simp [stepInput, hconn, onerror, exposedError, he, hm], by cases rc <;> decide⟩
      · exact ⟨m, by simp [stepInput, hconn, onerror, exposedError, he, hm], hm⟩

/-- Witness for C7's amended theorem at the initial open state. -/
theorem transport_error_handling_witness :
    (stepInput .v1 0 initOpenState (.transportError false)).1.isConnected = false
  ∧ (stepInput .v1 0 initOpenState (.transportError false)).1.isStreaming
      = initOpenState.isStreaming := by
  have h := transport_error_handling .v1 false 0 initOpenState rfl
  exact ⟨h.1, h.2.2.2.2⟩

/-- C8: a malformed (unparseable) frame is skipped without changing any
consumer state, and folding the frame sequence
[StreamStart, garbage, TextContent "hi", StreamEnd] yields exactly one
assistant message whose content is "hi". -/
theorem malformed_frame_skipped :
    (∀ (v : Version) (now : Nat) (s : ConsumerState) (raw : String),
      onmessage v now (.garbage raw) s = s)
  ∧ (∀ v : Version,
      ((List.foldl (fun s f => onmessage v 0 f s) initOpenState
        [Frame.data (.streamingStart "m"), Frame.garbage "not json",
         Frame.data (.textMessageContent "hi" true), Frame.data .streamingEnd]).messages.map
          (fun m => (m.mtype, m.content))) = [(MsgType.assistant, "hi")]) := by
  constructor
  · intro v now s raw; rfl
  · intro v; cases v <;> rfl

/-- C10: every event handler either appends one message at the end of the
log or rewrites the log through `updateMessage`; `updateMessage`
preserves length and order and leaves every message with a different id
untouched at its position; no handler ever shortens the log. -/
theorem message_log_frame_conditions :
    (∀ (v : Version) (now : Nat) (e : AGUIEvent) (s : ConsumerState),
       (∃ m, (handleAGUIEvent v now e s).messages = s.messages ++ [m])
     ∨ (∃ id u, (handleAGUIEvent v now e s).messages = updateMessageL id u s.messages))
  ∧ (∀ (id : String) (u : MessageUpdate) (msgs : List Message),
       (updateMessageL id u msgs).length = msgs.length)
  ∧ (∀ (id : String) (u : MessageUpdate) (msgs : List Message) (j : Nat) (m : Message),
       msgs[j]? = some m → m.id ≠ id → (updateMessageL id u msgs)[j]? = some m)
  ∧ (∀ (v : Version) (now : Nat) (e : AGUIEvent) (s : ConsumerState),
       s.messages.length ≤ (handleAGUIEvent v now e s).messages.length) := by
  refine ⟨?_, ?_, ?_, ?_⟩
  · intro v now e s
    cases e with
    | streamingStart mid0 => exact Or.inl ⟨_, rfl⟩
    | textMessageContent c ic => exact Or.inr ⟨_, _, rfl⟩
    | activitiesFound a t q => exact Or.inr ⟨_, _, rfl⟩
    | imagesLoaded a i => exact Or.inr ⟨_, _, rfl⟩
    | toolExecutionStart n =>
      exact Or.inr ⟨s.currentMessageId, emptyUpdate,
        (updateMessageL_empty s.currentMessageId s.messages).symm⟩
    | toolExecutionEnd n =>
      exact Or.inr ⟨s.currentMessageId, emptyUpdate,
        (updateMessageL_empty s.currentMessageId s.messages).symm⟩
    | streamingEnd => cases v <;> exact Or.inr ⟨_, _, rfl⟩
    | error msg => cases v <;> exact Or.inl ⟨_, rfl⟩
    | unknown tag =>
      exact Or.inr ⟨s.currentMessageId, emptyUpdate,
        (updateMessageL_empty s.currentMessageId s.messages).symm⟩
  · intro id u msgs; simp [updateMessageL]
  · intro id u msgs j m hj hm
    simp [updateMessageL, List.getElem?_map, hj, hm]
  · intro v now e s
    cases e <;> cases v <;> simp [handleAGUIEvent, updateMessageL]

/-- Witness for C10: an `updateMessage` targeting a different id leaves a
concrete message in place. -/
theorem message_log_frame_conditions_witness :
    (updateMessageL "b" emptyUpdate [Message.mk "a" .user "x" 0 false [] []])[0]?
      = some (Message.mk "a" .user "x" 0 false [] []) :=
  message_log_frame_conditions.2.2.1 "b" emptyUpdate
    [Message.mk "a" .user "x" 0 false [] []] 0
    (Message.mk "a" .user "x" 0 false [] []) rfl (by decide)

/-- C2: a query recorded less than 10 seconds ago gets a 429 with a plain
JSON error body, no stream events, and an unchanged dedup map; a fresh
query is recorded with the current time and a stream is opened.  Hence the
same (non-empty) query sent twice within the window yields one opened
stream and one 429, and sent again once the window has elapsed it opens a
new stream normally. -/
theorem dedup_window
    (st : DedupMap) (t t2 t3 : Nat) (raw : String)
    (mid mid2 mid3 : String) (wOk wOk2 wOk3 : Nat → Bool)
    (hraw : raw ≠ "") :
    (isRecentMessage st t (decodeMessage raw) = true →
       streamChat st t mid wOk raw = ⟨429, some dupBody, [], st⟩)
  ∧ (isRecentMessage st t (decodeMessage raw) = false →
       streamChat st t mid wOk raw =
         ⟨200, none, streamWriterEvents mid (generateResponse (decodeMessage raw)) wOk,
           recordMessage st t (decodeMessage raw)⟩)
  ∧ (isRecentMessage st t (decodeMessage raw) = false → t ≤ t2 → t2 - t < 10 →
       (streamChat st t mid wOk raw).status = 200
     ∧ streamChat (streamChat st t mid wOk raw).state t2 mid2 wOk2 raw
         = ⟨429, some dupBody, [], (streamChat st t mid wOk raw).state⟩)
  ∧ (isRecentMessage st t (decodeMessage raw) = false → t + 10 ≤ t3 →
       (streamChat (streamChat st t mid wOk raw).state t3 mid3 wOk3 raw).status = 200
     ∧ (streamChat (streamChat st t mid wOk raw).state t3 mid3 wOk3 raw).events
         = streamWriterEvents mid3 (generateResponse (decodeMessage raw)) wOk3) := by
  refine ⟨?_, ?_, ?_, ?_⟩
  · intro h; simp [streamChat, hraw, h]
  · intro h; simp [streamChat, hraw, h]
  · intro h h1 h2
    have hrec : isRecentMessage (recordMessage st t (decodeMessage raw)) t2
        (decodeMessage raw) = true := by
      simp [isRecentMessage, recordMessage, lookupMsg]; omega
    constructor
    · simp [streamChat, hraw, h]
    · simp only [streamChat, hraw, if_neg (by exact hraw), h]
      simp [h, hrec]
  · intro h h1
    have hrec : isRecentMessage (recordMessage st t (decodeMessage raw)) t3
        (decodeMessage raw) = false := by
      simp [isRecentMessage, recordMessage, lookupMsg]; omega
    simp [streamChat, hraw, h, hrec]

/-- Witness for C2: "hi" sent at t=0 opens a stream, resent at t=5 is
rejected with 429, resent at t=10 opens a stream again. -/
theorem dedup_window_witness :
    (streamChat [] 0 "m1" (fun _ => true) "hi").status = 200
  ∧ streamChat (streamChat [] 0 "m1" (fun _ => true) "hi").state 5 "m2" (fun _ => true) "hi"
      = ⟨429, some dupBody, [], (streamChat [] 0 "m1" (fun _ => true) "hi").state⟩
  ∧ (streamChat (streamChat [] 0 "m1" (fun _ => true) "hi").state 10 "m3"
      (fun _ => true) "hi").status = 200 := by
  have h := dedup_window [] 0 5 10 "hi" "m1" "m2" "m3"
    (fun _ => true) (fun _ => true) (fun _ => true) (by decide)
  have h3 := h.2.2.1 (by decide) (by decide) (by decide)
  exact ⟨h3.1, h3.2, (h.2.2.2 (by decide) (by decide)).1⟩

/-- C3 counterexample: with a write failure at call index 2 (the second
`TEXT_MESSAGE_CONTENT` write, after `STREAMING_START` succeeded), the
stream writer ends the connection having emitted `[StreamingStart,
TextContent "a ", StreamingEnd]` — no `Error` event is ever emitted, so a
mid-stream internal failure does end the connection without an Error
event, contrary to the claim. -/
theorem midstream_failure_no_error_cex :
    streamWriterEvents "msg-1" "a b c" (fun i => !(i == 2))
      = [.streamingStart "msg-1", .textMessageContent "a " false, .streamingEnd]
  ∧ (fun i => !(i == 2) : Nat → Bool) 0 = true
  ∧ (fun i => !(i == 2) : Nat → Bool) 2 = false
  ∧ (streamWriterEvents "msg-1" "a b c" (fun i => !(i == 2))).all
      (fun e => !isErrorEvent e) = true := by
  decide

/-- Every event produced by the word loop is a `TEXT_MESSAGE_CONTENT`
event (in particular neither an error nor a stream end). -/
theorem wordEvents_shape :
    ∀ (ws : List String) (e : AGUIEvent), e ∈ wordEvents ws →
      isErrorEvent e = false ∧ e ≠ .streamingEnd := by
  intro ws
  induction ws with
  | nil => intro e he; simp [wordEvents] at he
  | cons w ws ih =>
    intro e he
    cases ws with
    | nil =>
      simp [wordEvents] at he
      subst he
      exact ⟨rfl, by simp⟩
    | cons w2 ws2 =>
      have hw : wordEvents (w :: w2 :: ws2)
          = .textMessageContent (w ++ " ") false :: wordEvents (w2 :: ws2) := rfl
      rw [hw] at he
      rcases List.mem_cons.mp he with h | h
      · subst h; exact ⟨rfl, by simp⟩
      · exact ih e h

/-- Events actually written by the word loop are among the loop's input
events. -/
theorem emitWords_subset (wOk : Nat → Bool) :
    ∀ (es : List AGUIEvent) (i : Nat) (e : AGUIEvent),
      e ∈ (emitWords wOk i es).1 → e ∈ es := by
  intro es
  induction es with
  | nil => intro i e he; simp [emitWords] at he
  | cons a es ih =>
    intro i e he
    rw [emitWords] at he
    by_cases h : wOk i
    · simp [h] at he
      rcases he with h' | h'
      · exact h' ▸ List.mem_cons_self a es
      · exact List.mem_cons_of_mem a (ih (i + 1) e h')
    · simp [h] at he

/-- C3 (amended): the producer never emits an `Error` event; on a
mid-stream write failure it stops emitting content and still attempts a
`StreamingEnd`, so whenever a terminal event is delivered at all it is
`StreamingEnd` and it is the last event; the writer then returns, which
closes the connection.  (`ErrorEvent` is declared in `chat.go` but never
written.) -/
theorem midstream_failure_behavior
    (mid resp : String) (wOk : Nat → Bool) :
    (∀ e ∈ streamWriterEvents mid resp wOk, isErrorEvent e = false)
  ∧ ((streamWriterEvents mid resp wOk).getLast? = some AGUIEvent.streamingEnd
     ∨ AGUIEvent.streamingEnd ∉ streamWriterEvents mid resp wOk) := by
  unfold streamWriterEvents
  by_cases h0 : wOk 0
  · simp only [h0, if_true]
    constructor
    · intro e he
      rcases List.mem_cons.mp he with h | h
      · subst h; rfl
      · rcases List.mem_append.mp h with h' | h'
        · exact (wordEvents_shape _ e
            (emitWords_subset wOk _ 1 e h')).1
        · by_cases hend : wOk (emitWords wOk 1 (wordEvents (fields resp))).2
          · simp [hend] at h'
            subst h'; rfl
          · simp [hend] at h'
    · by_cases hend : wOk (emitWords wOk 1 (wordEvents (fields resp))).2
      · left
        simp only [hend, if_true]
        exact List.getLast?_concat _
      · right
        simp only [hend, if_false]
        intro hmem
        rcases List.mem_cons.mp hmem with h | h
        · exact AGUIEvent.noConfusion h
        · simp at h
          exact (wordEvents_shape _ _
            (emitWords_subset wOk _ 1 _ h)).2 rfl
  · simp [h0]

/-- Witness for C3's amended theorem: the start event of a fully written
stream is not an error event. -/
theorem midstream_failure_behavior_witness :
    isErrorEvent (AGUIEvent.streamingStart "m") = false :=
  (midstream_failure_behavior "m" "a" (fun _ => true)).1
    (AGUIEvent.streamingStart "m") (by decide)

/-- `updateMessage` never changes a message's type, so it preserves the
number of error-type messages. -/
theorem errCount_updateMessageL (id : String) (u : MessageUpdate) (msgs : List Message) :
    errCount (updateMessageL id u msgs) = errCount msgs := by
  unfold errCount updateMessageL
  rw [List.countP_map]
  apply List.countP_congr
  intro m _
  by_cases h : m.id = id <;> simp [h, Function.comp, applyUpdate_mtype]

/-- A non-terminal event changes neither the connection fields nor the
number of error-type messages. -/
theorem handle_nonterminal_preserves (v : Version) (now : Nat) (e : AGUIEvent)
    (s : ConsumerState) (h : isTerminalEvent e = false) :
    (handleAGUIEvent v now e s).conn = s.conn
  ∧ (handleAGUIEvent v now e s).isConnected = s.isConnected
  ∧ errCount (handleAGUIEvent v now e s).messages = errCount s.messages := by
  cases e with
  | streamingStart mid0 =>
    refine ⟨rfl, rfl, ?_⟩
    simp [handleAGUIEvent, errCount, List.countP_append]
  | textMessageContent c ic =>
    exact ⟨rfl, rfl, errCount_updateMessageL _ _ _⟩
  | activitiesFound a t q =>
    exact ⟨rfl, rfl, errCount_updateMessageL _ _ _⟩
  | imagesLoaded a i =>
    exact ⟨rfl, rfl, errCount_updateMessageL _ _ _⟩
  | toolExecutionStart n => exact ⟨rfl, rfl, rfl⟩
  | toolExecutionEnd n => exact ⟨rfl, rfl, rfl⟩
  | streamingEnd => simp [isTerminalEvent] at h
  | error msg => simp [isTerminalEvent] at h
  | unknown tag => exact ⟨rfl, rfl, rfl⟩

/-- Folding non-terminal events preserves the connection fields and the
error-message count. -/
theorem fold_nonterminal_preserves (v : Version) (now : Nat) :
    ∀ (es : List AGUIEvent) (s : ConsumerState),
      (∀ e ∈ es, isTerminalEvent e = false) →
      (foldEvents v now es s).conn = s.conn
    ∧ (foldEvents v now es s).isConnected = s.isConnected
    ∧ errCount (foldEvents v now es s).messages = errCount s.messages := by
  intro es
  induction es with
  | nil => intro s _; exact ⟨rfl, rfl, rfl⟩
  | cons e es ih =>
    intro s h
    have h1 := handle_nonterminal_preserves v now e s (h e (List.mem_cons_self e es))
    have h2 := ih (handleAGUIEvent v now e s)
      (fun x hx => h x (List.mem_cons_of_mem e hx))
    refine ⟨?_, ?_, ?_⟩
    · rw [foldEvents, List.foldl_cons, ← foldEvents, h2.1, h1.1]
    · rw [foldEvents, List.foldl_cons, ← foldEvents, h2.2.1, h1.2.1]
    · rw [foldEvents, List.foldl_cons, ← foldEvents, h2.2.2, h1.2.2]

/-- C4: a stream of non-terminal events ending with `StreamEnd` always
leaves the consumer with `streaming=false`, `isConnected=false` and the
EventSource closed; ending with `Error{msg}` (msg non-empty) leaves the
same flags, a non-empty exposed error, and exactly one more error-type
message in the log.  (In v2 the terminal handler itself closes the
connection; in v1 the subsequent transport-close notification does.) -/
theorem terminal_event_consumer_state
    (v : Version) (now : Nat) (rc : Bool) (es : List AGUIEvent) (s0 : ConsumerState)
    (msg : String)
    (hes : ∀ e ∈ es, isTerminalEvent e = false)
    (hconn : s0.conn = true) (hmsg : msg ≠ "") :
    ((processStream v now rc (es ++ [.streamingEnd]) s0).isStreaming = false
   ∧ (processStream v now rc (es ++ [.streamingEnd]) s0).isConnected = false
   ∧ (processStream v now rc (es ++ [.streamingEnd]) s0).conn = false)
  ∧ ((processStream v now rc (es ++ [.error msg]) s0).isStreaming = false
   ∧ (processStream v now rc (es ++ [.error msg]) s0).isConnected = false
   ∧ (processStream v now rc (es ++ [.error msg]) s0).conn = false
   ∧ (∃ m, exposedError v (processStream v now rc (es ++ [.error msg]) s0) = some m ∧ m ≠ "")
   ∧ errCount (processStream v now rc (es ++ [.error msg]) s0).messages
       = errCount s0.messages + 1) := by
  have hfold := fold_nonterminal_preserves v now es s0 hes
  have happ : ∀ t : AGUIEvent, foldEvents v now (es ++ [t]) s0
      = handleAGUIEvent v now t (foldEvents v now es s0) := by
    intro t; simp [foldEvents, List.foldl_append]
  have hc1 : (foldEvents v now es s0).conn = true := by rw [hfold.1, hconn]
  have hcnt := hfold.2.2
  simp only [errCount] at hcnt
  constructor
  · cases v with
    | v1 =>
      simp [processStream, happ, onerror, handleAGUIEvent, hc1]
    | v2 =>
      simp [processStream, happ, handleAGUIEvent, hc1]
  · cases v with
    | v1 =>
      refine ⟨?_, ?_, ?_, ?_, ?_⟩
      · simp [processStream, happ, onerror, handleAGUIEvent, hc1]
      · simp [processStream, happ, onerror, handleAGUIEvent, hc1]
      · simp [processStream, happ, onerror, handleAGUIEvent, hc1]
      · refine ⟨if rc then "Connection closed unexpectedly"
          else "Connection error occurred", ?_, by cases rc <;> decide⟩
        simp [processStream, happ, onerror, handleAGUIEvent, exposedError, hc1]
      · simp [processStream, happ, onerror, handleAGUIEvent, hc1, errCount,
          List.countP_append, hcnt]
    | v2 =>
      refine ⟨?_, ?_, ?_, ?_, ?_⟩
      · simp [processStream, happ, handleAGUIEvent, hc1]
      · simp [processStream, happ, handleAGUIEvent, hc1]
      · simp [processStream, happ, handleAGUIEvent, hc1]
      · refine ⟨msg, ?_, hmsg⟩
        simp [processStream, happ, handleAGUIEvent, exposedError, hmsg, hc1]
      · simp [processStream, happ, handleAGUIEvent, hc1, errCount,
          List.countP_append, hcnt]

/-- Witness for C4: a one-content stream ending in `StreamEnd` closes out,
and one ending in `Error "boom"` adds exactly one error message. -/
theorem terminal_event_consumer_state_witness :
    (processStream .v1 0 true
      ([AGUIEvent.streamingStart "m"] ++ [AGUIEvent.streamingEnd]) initOpenState).isStreaming
      = false
  ∧ errCount (processStream .v1 0 true
      ([AGUIEvent.streamingStart "m"] ++ [AGUIEvent.error "boom"]) initOpenState).messages
      = errCount initOpenState.messages + 1 := by
  have h := terminal_event_consumer_state .v1 0 true [AGUIEvent.streamingStart "m"]
    initOpenState "boom" (by decide) rfl (by decide)
  exact ⟨h.1.1, h.2.2.2.2.2⟩

/-- One event is produced per token. -/
theorem wordEvents_length : ∀ ws : List String, (wordEvents ws).length = ws.length := by
  intro ws
  induction ws with
  | nil => rfl
  | cons w ws ih =>
    cases ws with
    | nil => rfl
    | cons w2 ws2 =>
      have hw : wordEvents (w :: w2 :: ws2)
          = .textMessageContent (w ++ " ") false :: wordEvents (w2 :: ws2) := rfl
      rw [hw]
      simp [ih]

/-- `isComplete` is false on every token but the last, true on the last. -/
theorem wordEvents_flags : ∀ ws : List String,
    flagsOf (wordEvents ws)
      = List.replicate (ws.length - 1) false ++ (if ws = [] then [] else [true]) := by
  intro ws
  induction ws with
  | nil => rfl
  | cons w ws ih =>
    cases ws with
    | nil => rfl
    | cons w2 ws2 =>
      have hw : wordEvents (w :: w2 :: ws2)
          = .textMessageContent (w ++ " ") false :: wordEvents (w2 :: ws2) := rfl
      rw [hw]
      simp only [flagsOf, List.filterMap_cons] at ih ⊢
      rw [ih]
      simp [List.replicate_succ]

/-- Every word-loop event is a text event. -/
theorem wordEvents_allText : ∀ (ws : List String) (e : AGUIEvent),
    e ∈ wordEvents ws → isTextEvent e = true := by
  intro ws
  induction ws with
  | nil => intro e he; simp [wordEvents] at he
  | cons w ws ih =>
    intro e he
    cases ws with
    | nil =>
      simp [wordEvents] at he
      subst he; rfl
    | cons w2 ws2 =>
      have hw : wordEvents (w :: w2 :: ws2)
          = .textMessageContent (w ++ " ") false :: wordEvents (w2 :: ws2) := rfl
      rw [hw] at he
      rcases List.mem_cons.mp he with h | h
      · subst h; rfl
      · exact ih e h

/-- The concatenation of the word-loop contents is the token list joined
by single spaces. -/
theorem wordEvents_concat : ∀ ws : List String,
    concatS (contentsOf (wordEvents ws)) = joinWords ws := by
  intro ws
  induction ws with
  | nil => rfl
  | cons w ws ih =>
    cases ws with
    | nil => simp [wordEvents, contentsOf, concatS, joinWords, String.append_empty]
    | cons w2 ws2 =>
      have hw : wordEvents (w :: w2 :: ws2)
          = .textMessageContent (w ++ " ") false :: wordEvents (w2 :: ws2) := rfl
      have hj : joinWords (w :: w2 :: ws2) = w ++ " " ++ joinWords (w2 :: ws2) := rfl
      rw [hw]
      simp only [contentsOf, List.filterMap_cons] at ih ⊢
      rw [concatS, ih, hj]

/-- With every write succeeding, the loop writes all its input events. -/
theorem emitWords_allOk : ∀ (es : List AGUIEvent) (i : Nat),
    emitWords (fun _ => true) i es = (es, i + es.length) := by
  intro es
  induction es with
  | nil => intro i; simp [emitWords]
  | cons e es ih =>
    intro i
    rw [emitWords]
    simp [ih]
    omega

/-- With every write succeeding, the producer emits exactly
start, the word events, and the end event. -/
theorem streamWriter_allOk (mid resp : String) :
    streamWriterEvents mid resp (fun _ => true)
      = .streamingStart mid :: (wordEvents (fields resp) ++ [.streamingEnd]) := by
  simp [streamWriterEvents, emitWords_allOk]

/-- `updateMessage` on a log ending in the target rewrites only the
target. -/
theorem updateMessageL_snoc (id : String) (u : MessageUpdate) :
    ∀ (pre : List Message) (tgt : Message),
      (∀ m ∈ pre, m.id ≠ id) → tgt.id = id →
      updateMessageL id u (pre ++ [tgt]) = pre ++ [applyUpdate u tgt] := by
  intro pre
  induction pre with
  | nil => intro tgt _ ht; simp [updateMessageL, ht]
  | cons m rest ih =>
    intro tgt hpre ht
    have h1 : m.id ≠ id := hpre m (List.mem_cons_self m rest)
    have h2 : ∀ x ∈ rest, x.id ≠ id := fun x hx => hpre x (List.mem_cons_of_mem m hx)
    have ihr := ih tgt h2 ht
    simp only [updateMessageL, List.map_cons] at ihr ⊢
    simp [h1, ihr]

/-- Folding any run of text events accumulates their contents, in order,
both in the accumulator ref and in the target message's content. -/
theorem textFold (v : Version) (now : Nat) :
    ∀ (es : List AGUIEvent) (pre : List Message) (tgt : Message) (s : ConsumerState),
      (∀ e ∈ es, isTextEvent e = true) →
      s.messages = pre ++ [tgt] →
      s.currentMessageId = tgt.id →
      s.currentMessage = tgt.content →
      (∀ m ∈ pre, m.id ≠ tgt.id) →
      ∃ tgt2 : Message,
        (foldEvents v now es s).messages = pre ++ [tgt2]
      ∧ tgt2.id = tgt.id
      ∧ tgt2.mtype = tgt.mtype
      ∧ tgt2.content = tgt.content ++ concatS (contentsOf es)
      ∧ (foldEvents v now es s).currentMessageId = tgt.id
      ∧ (foldEvents v now es s).currentMessage = tgt.content ++ concatS (contentsOf es) := by
  intro es
  induction es with
  | nil =>
    intro pre tgt s _ hmsgs hmid hcm hpre
    refine ⟨tgt, hmsgs, rfl, rfl, (String.append_empty tgt.content).symm, hmid, ?_⟩
    show s.currentMessage = tgt.content ++ concatS (contentsOf [])
    rw [hcm]
    exact (String.append_empty tgt.content).symm
  | cons e es ih =>
    intro pre tgt s hall hmsgs hmid hcm hpre
    have htext := hall e (List.mem_cons_self e es)
    cases e with
    | textMessageContent c b =>
      have hrest : ∀ x ∈ es, isTextEvent x = true :=
        fun x hx => hall x (List.mem_cons_of_mem _ hx)
      have hm1 : (handleAGUIEvent v now (.textMessageContent c b) s).messages
          = pre ++ [applyUpdate ⟨some (s.currentMessage ++ c), some (!b), none, none⟩ tgt] := by
        simp only [handleAGUIEvent]
        rw [hmsgs, hmid]
        exact updateMessageL_snoc tgt.id _ pre tgt hpre rfl
      have hmid1 : (handleAGUIEvent v now (.textMessageContent c b) s).currentMessageId
          = (applyUpdate ⟨some (s.currentMessage ++ c), some (!b), none, none⟩ tgt).id := hmid
      have hcm1 : (handleAGUIEvent v now (.textMessageContent c b) s).currentMessage
          = (applyUpdate ⟨some (s.currentMessage ++ c), some (!b), none, none⟩ tgt).content :=
        rfl
      have hpre1 : ∀ m ∈ pre,
          m.id ≠ (applyUpdate ⟨some (s.currentMessage ++ c), some (!b), none, none⟩ tgt).id :=
        fun m hm => hpre m hm
      obtain ⟨tgt2, h1, h2, h3, h4, h5, h6⟩ :=
        ih pre (applyUpdate ⟨some (s.currentMessage ++ c), some (!b), none, none⟩ tgt)
          (handleAGUIEvent v now (.textMessageContent c b) s) hrest hm1 hmid1 hcm1 hpre1
      refine ⟨tgt2, h1, h2, h3, ?_, h5, ?_⟩
      · calc tgt2.content
            = (s.currentMessage ++ c) ++ concatS (contentsOf es) := h4
          _ = (tgt.content ++ c) ++ concatS (contentsOf es) := by rw [hcm]
          _ = tgt.content ++ (c ++ concatS (contentsOf es)) := String.append_assoc _ _ _
          _ = tgt.content
              ++ concatS (contentsOf (AGUIEvent.textMessageContent c b :: es)) := rfl
      · calc (foldEvents v now (AGUIEvent.textMessageContent c b :: es) s).currentMessage
            = (s.currentMessage ++ c) ++ concatS (contentsOf es) := h6
          _ = (tgt.content ++ c) ++ concatS (contentsOf es) := by rw [hcm]
          _ = tgt.content ++ (c ++ concatS (contentsOf es)) := String.append_assoc _ _ _
          _ = tgt.content
              ++ concatS (contentsOf (AGUIEvent.textMessageContent c b :: es)) := rfl
    | streamingStart mid0 => simp [isTextEvent] at htext
    | activitiesFound a t q => simp [isTextEvent] at htext
    | imagesLoaded a i => simp [isTextEvent] at htext
    | toolExecutionStart n => simp [isTextEvent] at htext
    | toolExecutionEnd n => simp [isTextEvent] at htext
    | streamingEnd => simp [isTextEvent] at htext
    | error m => simp [isTextEvent] at htext
    | unknown t => simp [isTextEvent] at htext

/-- C5: on a fully written stream the producer emits exactly one
`TEXT_MESSAGE_CONTENT` event per whitespace-delimited token of the
generated response (trailing space on all but the last, `isComplete`
true only on the last), and the consumer, folding any sequence of text
events between start and end, assembles a single assistant message whose
content is the concatenation of the received contents in arrival order
— for the producer's chunking this equals the response tokens joined by
single spaces, and any re-chunking with the same concatenation yields
the same content (chunking invariance). -/
theorem token_stream_reassembly
    (v : Version) (now : Nat) (msgId q : String) (s0 : ConsumerState)
    (hmid : msgId ≠ "") (hfresh : ∀ m ∈ s0.messages, m.id ≠ msgId) :
    streamWriterEvents msgId (generateResponse q) (fun _ => true)
      = .streamingStart msgId :: (wordEvents (fields (generateResponse q)) ++ [.streamingEnd])
  ∧ (wordEvents (fields (generateResponse q))).length = (fields (generateResponse q)).length
  ∧ flagsOf (wordEvents (fields (generateResponse q)))
      = List.replicate ((fields (generateResponse q)).length - 1) false
        ++ (if fields (generateResponse q) = [] then [] else [true])
  ∧ (∀ es : List AGUIEvent, (∀ e ∈ es, isTextEvent e = true) →
      ∃ tgt : Message,
        (foldEvents v now
          (AGUIEvent.streamingStart msgId :: (es ++ [AGUIEvent.streamingEnd])) s0).messages
          = s0.messages ++ [tgt]
      ∧ tgt.id = msgId ∧ tgt.mtype = MsgType.assistant
      ∧ tgt.content = concatS (contentsOf es))
  ∧ concatS (contentsOf (wordEvents (fields (generateResponse q))))
      = joinWords (fields (generateResponse q)) := by
  refine ⟨streamWriter_allOk msgId (generateResponse q), wordEvents_length _,
    wordEvents_flags _, ?_, wordEvents_concat _⟩
  intro es hall
  set fresh : Message := ⟨msgId, .assistant, "", now, true, [], []⟩ with hfr
  set s1 := handleAGUIEvent v now (.streamingStart msgId) s0 with hs1
  have hm1 : s1.messages = s0.messages ++ [fresh] := by
    rw [hs1]; simp only [handleAGUIEvent]; simp [hmid, hfr]
  have hmid1 : s1.currentMessageId = fresh.id := by
    rw [hs1]; simp only [handleAGUIEvent]; simp [hmid, hfr]
  have hcm1 : s1.currentMessage = fresh.content := by
    rw [hs1]; simp only [handleAGUIEvent]
  obtain ⟨tgt2, h1, h2, h3, h4, h5, h6⟩ :=
    textFold v now es s0.messages fresh s1 hall hm1 hmid1 hcm1 hfresh
  have hid2 : tgt2.id = msgId := h2
  have hsplit : foldEvents v now
      (AGUIEvent.streamingStart msgId :: (es ++ [AGUIEvent.streamingEnd])) s0
      = handleAGUIEvent v now .streamingEnd (foldEvents v now es s1) := by
    simp [foldEvents, List.foldl_append, hs1]
  have hupd : updateMessageL (foldEvents v now es s1).currentMessageId
        ⟨none, some false, none, none⟩ (foldEvents v now es s1).messages
      = s0.messages ++ [applyUpdate ⟨none, some false, none, none⟩ tgt2] := by
    rw [h1, h5]
    exact updateMessageL_snoc fresh.id _ s0.messages tgt2 hfresh hid2
  refine ⟨applyUpdate ⟨none, some false, none, none⟩ tgt2, ?_, hid2, h3, ?_⟩
  · rw [hsplit]
    cases v <;> exact hupd
  · calc (applyUpdate ⟨none, some false, none, none⟩ tgt2).content
        = "" ++ concatS (contentsOf es) := h4
      _ = concatS (contentsOf es) := String.empty_append _

/-- Witness for C5: one concrete stream, showing the producer shape and
the reassembled content for the canonical chunking. -/
theorem token_stream_reassembly_witness :
    streamWriterEvents "m" (generateResponse "x") (fun _ => true)
      = .streamingStart "m"
        :: (wordEvents (fields (generateResponse "x")) ++ [.streamingEnd])
  ∧ concatS (contentsOf (wordEvents (fields (generateResponse "x"))))
      = joinWords (fields (generateResponse "x")) := by
  have h := token_stream_reassembly .v1 0 "m" "x" initOpenState (by decide)
    (by intro m hm; simp [initOpenState] at hm)
  exact ⟨h.1, h.2.2.2.2⟩

/-- A hex digit encodes and decodes back to itself. -/
theorem fromHex_toHex : ∀ n, n < 16 → fromHexDigit (toHexUpper n) = some n := by
  decide

/-- Hex digits are small. -/
theorem toHexUpper_lt (n : Nat) (hn : n < 16) : toHexUpper n < 256 := by
  unfold toHexUpper
  split <;> omega

/-- The transport decoder undoes a percent-escape. -/
theorem transportDecodeB_pct (b : Nat) (hb : b < 256) (l : List Nat) :
    transportDecodeB (pctEncode b ++ l) = b :: transportDecodeB l := by
  have h1 : b / 16 < 16 := by omega
  have h2 : b % 16 < 16 := Nat.mod_lt _ (by norm_num)
  have e1 := fromHex_toHex _ h1
  have e2 := fromHex_toHex _ h2
  have hb2 : 16 * (b / 16) + b % 16 = b := by omega
  simp [pctEncode, transportDecodeB, e1, e2, hb2]

/-- The transport decoder copies a byte that is neither `%` nor `+`. -/
theorem transportDecodeB_keep (b : Nat) (h37 : (b == 37) = false) (h43 : (b == 43) = false)
    (l : List Nat) : transportDecodeB (b :: l) = b :: transportDecodeB l := by
  match l with
  | [] => simp [transportDecodeB, h37, h43]
  | [c] => simp [transportDecodeB, h37, h43]
  | c1 :: c2 :: rest => simp [transportDecodeB, h37, h43]

/-- The transport decoder turns `+` back into a space. -/
theorem transportDecodeB_plus (l : List Nat) :
    transportDecodeB (43 :: l) = 32 :: transportDecodeB l := by
  match l with
  | [] => simp [transportDecodeB]
  | [c] => simp [transportDecodeB]
  | c1 :: c2 :: rest => simp [transportDecodeB]

/-- A byte kept by the form serializer is neither `%` nor `+`. -/
theorem isFormUnreserved_notSpecial (b : Nat) (hf : isFormUnreserved b = true) :
    (b == 37) = false ∧ (b == 43) = false := by
  constructor
  · rcases eq_or_ne b 37 with rfl | hne
    · exact absurd hf (by decide)
    · simp [hne]
  · rcases eq_or_ne b 43 with rfl | hne
    · exact absurd hf (by decide)
    · simp [hne]

/-- A byte kept by `encodeURIComponent` is neither `%` nor `+`. -/
theorem isUriUnreserved_notSpecial (b : Nat) (hf : isUriUnreserved b = true) :
    (b == 37) = false ∧ (b == 43) = false := by
  constructor
  · rcases eq_or_ne b 37 with rfl | hne
    · exact absurd hf (by decide)
    · simp [hne]
  · rcases eq_or_ne b 43 with rfl | hne
    · exact absurd hf (by decide)
    · simp [hne]

/-- The transport decoding undoes the form serialization byte for byte. -/
theorem transport_form_roundtrip :
    ∀ l : List Nat, (∀ b ∈ l, b < 256) → transportDecodeB (formEncodeB l) = l := by
  intro l
  induction l with
  | nil => intro _; rfl
  | cons b rest ih =>
    intro h
    have hb : b < 256 := h b (List.mem_cons_self b rest)
    have hrest : ∀ x ∈ rest, x < 256 := fun x hx => h x (List.mem_cons_of_mem b hx)
    rw [formEncodeB]
    by_cases h32 : (b == 32) = true
    · have hb32 : b = 32 := by simpa using h32
      rw [if_pos h32, List.singleton_append, transportDecodeB_plus, ih hrest, hb32]
    · rw [if_neg h32]
      by_cases hf : isFormUnreserved b = true
      · rw [if_pos hf]
        obtain ⟨h37, h43⟩ := isFormUnreserved_notSpecial b hf
        rw [List.singleton_append, transportDecodeB_keep b h37 h43, ih hrest]
      · rw [if_neg hf, transportDecodeB_pct b hb, ih hrest]

/-- Go `QueryUnescape` undoes a percent-escape. -/
theorem queryUnescapeB_pct (b : Nat) (hb : b < 256) (l : List Nat) :
    queryUnescapeB (pctEncode b ++ l) = (queryUnescapeB l).map (fun t => b :: t) := by
  have h1 : b / 16 < 16 := by omega
  have h2 : b % 16 < 16 := Nat.mod_lt _ (by norm_num)
  have e1 := fromHex_toHex _ h1
  have e2 := fromHex_toHex _ h2
  have hb2 : 16 * (b / 16) + b % 16 = b := by omega
  simp [pctEncode, queryUnescapeB, e1, e2, hb2]

/-- Go `QueryUnescape` copies a byte that is neither `%` nor `+`. -/
theorem queryUnescapeB_keep (b : Nat) (h37 : (b == 37) = false) (h43 : (b == 43) = false)
    (l : List Nat) : queryUnescapeB (b :: l) = (queryUnescapeB l).map (fun t => b :: t) := by
  match l with
  | [] => simp [queryUnescapeB, h37, h43]
  | [c] => simp [queryUnescapeB, h37, h43]
  | c1 :: c2 :: rest => simp [queryUnescapeB, h37, h43]

/-- Go `QueryUnescape` undoes `encodeURIComponent`. -/
theorem queryUnescape_encodeURI :
    ∀ l : List Nat, (∀ b ∈ l, b < 256) → queryUnescapeB (encodeURIComponentB l) = some l := by
  intro l
  induction l with
  | nil => intro _; rfl
  | cons b rest ih =>
    intro h
    have hb : b < 256 := h b (List.mem_cons_self b rest)
    have hrest : ∀ x ∈ rest, x < 256 := fun x hx => h x (List.mem_cons_of_mem b hx)
    rw [encodeURIComponentB]
    by_cases hf : isUriUnreserved b = true
    · rw [if_pos hf]
      obtain ⟨h37, h43⟩ := isUriUnreserved_notSpecial b hf
      rw [List.singleton_append, queryUnescapeB_keep b h37 h43, ih hrest]
      rfl
    · rw [if_neg hf, queryUnescapeB_pct b hb, ih hrest]
      rfl

/-- Go `QueryUnescape` is the identity on byte strings free of `%` and
`+`. -/
theorem queryUnescapeB_id :
    ∀ l : List Nat, (∀ b ∈ l, (b == 43) = false ∧ (b == 37) = false) →
      queryUnescapeB l = some l := by
  intro l
  induction l with
  | nil => intro _; rfl
  | cons b rest ih =>
    intro h
    have hb := h b (List.mem_cons_self b rest)
    have hrest : ∀ x ∈ rest, (x == 43) = false ∧ (x == 37) = false :=
      fun x hx => h x (List.mem_cons_of_mem b hx)
    rw [queryUnescapeB_keep b hb.2 hb.1, ih hrest]
    rfl

/-- Every byte of the `encodeURIComponent` output is below 256. -/
theorem encodeURIComponentB_bounds :
    ∀ l : List Nat, (∀ b ∈ l, b < 256) → ∀ c ∈ encodeURIComponentB l, c < 256 := by
  intro l
  induction l with
  | nil => intro _ c hc; simp [encodeURIComponentB] at hc
  | cons b rest ih =>
    intro h c hc
    have hb : b < 256 := h b (List.mem_cons_self b rest)
    have hrest : ∀ x ∈ rest, x < 256 := fun x hx => h x (List.mem_cons_of_mem b hx)
    rw [encodeURIComponentB] at hc
    rcases List.mem_append.mp hc with h1 | h1
    · have d1 : b / 16 < 16 := by omega
      have d2 : b % 16 < 16 := Nat.mod_lt _ (by norm_num)
      by_cases hf : isUriUnreserved b = true
      · rw [if_pos hf] at h1
        simp at h1
        omega
      · rw [if_neg hf] at h1
        simp [pctEncode] at h1
        rcases h1 with rfl | rfl | rfl
        · omega
        · exact toHexUpper_lt _ d1
        · exact toHexUpper_lt _ d2
    · exact ih hrest c h1

/-- C9 counterexample: under the v2 pipeline (no pre-encoding on the
client, extra `QueryUnescape` on the server) the text "a+b" reaches
`generateResponse` as "a b" — the round-trip is not exact. -/
theorem v2_pipeline_cex :
    v2PipelineB (bytesOfString "a+b") = bytesOfString "a b"
  ∧ v2PipelineB (bytesOfString "a+b") ≠ bytesOfString "a+b" := by
  constructor
  · rfl
  · decide

/-- C9 (amended): the v1 pipeline (`encodeURIComponent` before
`searchParams.set`) round-trips every byte string exactly; the v2
pipeline round-trips only texts containing neither `+` (0x2B) nor `%`
(0x25). -/
theorem encoding_roundtrip (l : List Nat) (hl : ∀ b ∈ l, b < 256) :
    v1PipelineB l = l
  ∧ ((∀ b ∈ l, (b == 43) = false ∧ (b == 37) = false) → v2PipelineB l = l) := by
  constructor
  · unfold v1PipelineB serverDecodeB
    rw [transport_form_roundtrip _ (encodeURIComponentB_bounds l hl),
      queryUnescape_encodeURI l hl]
    rfl
  · intro hs
    unfold v2PipelineB serverDecodeB
    rw [transport_form_roundtrip l hl, queryUnescapeB_id l hs]
    rfl

/-- Witness for C9's amended theorem: "hi" survives the v1 pipeline. -/
theorem encoding_roundtrip_witness :
    v1PipelineB (bytesOfString "hi") = bytesOfString "hi" :=
  (encoding_roundtrip (bytesOfString "hi") (by decide)).1

end CommunityChatbot
